import Mathlib

/-!
Shallow embedding of the `cargo php` CLI (src/crates/cli/src/lib.rs) for the
ext-php-rs repository: target resolution (`find_ext`), build-event correlation
(`build_ext`), the introspection version gate (`Stubs::handle`), and the
php.ini reconciliation performed by `Install::handle` and `Remove::handle`.
Filesystem state is modelled explicitly as a map from paths to file contents
plus a set of directories; subprocess collaborators (the interactive selector,
`php-config`, the stub renderer) are modelled as function parameters, as the
spec treats them as external collaborators specified only at their interface.
-/

set_option maxRecDepth 4000

/-! ## String primitives mirroring the Rust standard library -/

/-- Helper for substring search: `leadsWith pat l` holds when `pat` is an
initial segment of `l`. -/
def leadsWith : List Char → List Char → Bool
  | [], _ => true
  | _ :: _, [] => false
  | p :: ps, h :: hs => p == h && leadsWith ps hs

/-- Rust `str::contains` on character lists: some suffix of the haystack
starts with the pattern. -/
def hasSub (pat : List Char) : List Char → Bool
  | [] => leadsWith pat []
  | c :: cs => leadsWith pat (c :: cs) || hasSub pat cs

/-- Rust `str::contains` as used by `line.contains(&ext_line)` (line 213) and
`line.contains(&ext_file)` (line 285): substring containment. -/
def rcontains (hay pat : String) : Bool := hasSub pat.toList hay.toList

/-- Drops a final carriage return from a newline-terminated line, as
`BufRead::lines` does for CRLF line endings. -/
def stripCR (l : List Char) : List Char :=
  if l.getLast? = some '\r' then l.dropLast else l

/-- Core of `BufRead::lines`: split at newline bytes; a trailing newline does
not produce an extra empty line, and each produced line has its line ending
removed. -/
def rustLinesAux : List Char → List Char → List String
  | [], acc => if acc.isEmpty then [] else [String.mk acc.reverse]
  | c :: rest, acc =>
    if c = '\n' then String.mk (stripCR acc.reverse) :: rustLinesAux rest []
    else rustLinesAux rest (c :: acc)

/-- Rust `BufRead::lines` over the full contents of a reader (lines 211, 283). -/
def rustLines (s : String) : List String := rustLinesAux s.toList []

/-- Rust slice `join` with a newline separator (`new_lines.join` at lines
224, 290). -/
def joinLines : List String → String
  | [] => ""
  | [l] => l
  | l :: ls => l ++ "\n" ++ joinLines ls

/-- Splits a character list at every occurrence of `sep`, keeping empty
pieces (the behaviour of Rust `str::split` with a `char` pattern). -/
def splitOnChar (sep : Char) : List Char → List (List Char)
  | [] => [[]]
  | c :: cs =>
    if c = sep then [] :: splitOnChar sep cs
    else
      match splitOnChar sep cs with
      | [] => [[c]]
      | r :: rs => (c :: r) :: rs

/-- `Path::file_name` (line 189): the final component of a `/`-separated path. -/
def pathFileName (p : String) : String :=
  String.mk ((splitOnChar '/' p.toList).getLastD [])

/-- `Utf8Path::extension` (line 506): the portion of the file name after the
final dot; none when there is no dot, or when the file name begins with a dot
and has no other dot. -/
def pathExtension (p : String) : Option String :=
  match splitOnChar '.' ((splitOnChar '/' p.toList).getLastD []) with
  | [] => none
  | [_] => none
  | [[], _] => none
  | parts => some (String.mk (parts.getLastD []))

/-- Rust `str::replace` with the single-character pattern `-` and
replacement `_` (line 252). -/
def rustReplaceHyphens (s : String) : String :=
  String.mk (s.toList.map (fun c => if c = '-' then '_' else c))

/-! ## Filesystem model -/

/-- First value bound to key `p` in an association list. -/
def assocFind (p : String) : List (String × String) → Option String
  | [] => none
  | (k, v) :: t => if k = p then some v else assocFind p t

/-- Removes every binding of key `p` from an association list. -/
def assocErase (p : String) : List (String × String) → List (String × String)
  | [] => []
  | (k, v) :: t => if k = p then assocErase p t else (k, v) :: assocErase p t

/-- Explicit filesystem state: regular files (path to contents) and
directories. -/
structure FS where
  files : List (String × String)
  dirs : List String
deriving DecidableEq

/-- Contents of the regular file at `p`, when present. -/
def FS.read (fs : FS) (p : String) : Option String := assocFind p fs.files

/-- `Path::is_file`. -/
def FS.isFile (fs : FS) (p : String) : Bool := (fs.read p).isSome

/-- `Path::is_dir`. -/
def FS.isDir (fs : FS) (p : String) : Bool := fs.dirs.contains p

/-- Writes contents `c` to path `p`, replacing any previous file there. -/
def FS.write (fs : FS) (p c : String) : FS :=
  ⟨(p, c) :: assocErase p fs.files, fs.dirs⟩

/-- `std::fs::remove_file` (line 271). -/
def FS.removeFile (fs : FS) (p : String) : FS :=
  ⟨assocErase p fs.files, fs.dirs⟩

/-! ## php.ini reconciliation (`Install::handle` lines 199-226,
`Remove::handle` lines 273-292) -/

/-- `OpenOptions::new().read(true).write(true).create(true).truncate(true)`
(lines 200-206 and 274-280) applied to a file whose prior contents are
`prior` (`none` when the file is absent): the file is created when missing,
and an existing file is truncated to length zero at open time, so the
contents visible to the subsequent `BufReader` are empty in both cases. -/
def openReadWriteCreateTruncate (prior : Option String) : String :=
  match prior with
  | none => ""
  | some _ => ""

/-- The full php.ini rewrite of `Install::handle` (lines 199-226): read the
visible lines of the just-opened file, retain those not containing
`extension=<name>`, append the canonical line (prefixed with `;` when
`disable` is set), and join with newlines. -/
def installIniUpdate (prior : Option String) (ext_name : String) (disable : Bool) : String :=
  let ext_line := "extension=" ++ ext_name
  let new_lines := (rustLines (openReadWriteCreateTruncate prior)).filter
    (fun line => !(rcontains line ext_line))
  let ext_line := if disable then ";" ++ ext_line else ext_line
  joinLines (new_lines ++ [ext_line])

/-- The php.ini rewrite of `Remove::handle` (lines 273-292): retain the
visible lines of the just-opened file that do not contain the extension file
name, appending nothing. -/
def removeIniUpdate (prior : Option String) (ext_file : String) : String :=
  joinLines ((rustLines (openReadWriteCreateTruncate prior)).filter
    (fun line => !(rcontains line ext_file)))

/-! ## php-config collaborator and command environment -/

/-- Trimmed outputs of the `php-config` helper subprocess. -/
structure Env where
  php_ext_dir : String
  php_ini_dir : String
deriving DecidableEq

/-- `PhpConfig::get_php_ini` (lines 379-391): joins the reported ini
directory with `php.ini` and creates that file when the path does not
exist. -/
def PhpConfig.get_php_ini (env : Env) (fs : FS) : String × FS :=
  let path := env.php_ini_dir ++ "/php.ini"
  if fs.isFile path || fs.isDir path then (path, fs) else (path, fs.write path "")

/-- Errors surfaced by the CLI, one constructor per `bail!`/`context` site. -/
inductive GateError where
  | cliParse (s : String)
  | extParse (s : String)
  | incompatible (ext cli : Nat × Nat × Nat)
deriving DecidableEq

inductive CliError where
  | cancelled
  | copyFailed
  | notInstalled
  | noLibTargets
  | selectionOutOfBounds
  | compilationFailed
  | artifactNotCompiled
  | artifactPathNotFound
  | gateFailed (e : GateError)
  | renderFailed
deriving DecidableEq

/-! ## Install command (lines 92-112 and 162-229) -/

/-- The `Install` argument structure (lines 92-112); the `manifest` option is
consumed by `find_ext`, modelled separately. -/
structure Install where
  install_dir : Option String
  ini_path : Option String
  disable : Bool
  release : Bool
deriving DecidableEq

/-- `Install::handle` after the build (lines 167-228): resolve the extension
directory and php.ini path (invoking `php-config` only when no explicit
install directory is given), ask for confirmation, copy the built extension
into the extension directory, and rewrite php.ini when a configuration path
is in play.  Returns the command result together with the final filesystem
state. -/
def Install.handle (i : Install) (env : Env) (ext_path : String) (confirm : Bool)
    (fs : FS) : (Except CliError Unit) × FS :=
  let (ext_dir, php_ini, fs) :=
    match i.install_dir with
    | some install_dir => (install_dir, (none : Option String), fs)
    | none =>
      let (ini, fs') := PhpConfig.get_php_ini env fs
      (env.php_ext_dir, some ini, fs')
  let php_ini := match i.ini_path with
    | some ini_path => some ini_path
    | none => php_ini
  if !confirm then (.error .cancelled, fs)
  else
    let ext_name := pathFileName ext_path
    let dest := if fs.isDir ext_dir then ext_dir ++ "/" ++ ext_name else ext_dir
    match fs.read ext_path with
    | none => (.error .copyFailed, fs)
    | some bin =>
      let fs := fs.write dest bin
      match php_ini with
      | none => (.ok (), fs)
      | some ini =>
        (.ok (), fs.write ini (installIniUpdate (fs.read ini) ext_name i.disable))

/-! ## Remove command (lines 114-128 and 232-295) -/

/-- The `Remove` argument structure (lines 114-128). -/
structure Remove where
  install_dir : Option String
  ini_path : Option String
deriving DecidableEq

/-- The installed-library path checked and deleted by `Remove::handle`
(lines 249-255): extension directory joined with the platform library file
name `<dll-pre><crate name with hyphens underscored><dll-suf>`. -/
def removeExtPath (r : Remove) (env : Env) (crate_name dll_pre dll_suf : String) : String :=
  (match r.install_dir with
   | some install_dir => install_dir
   | none => env.php_ext_dir) ++ "/" ++ (dll_pre ++ rustReplaceHyphens crate_name ++ dll_suf)

/-- The tail of `Remove::handle` from the installed-file check onward
(lines 257-294): fail when the installed library file is missing, ask for
confirmation, delete the library, and rewrite php.ini when the configured
path exists as a file. -/
def Remove.finish (ext_file ext_path : String) (php_ini : Option String)
    (confirm : Bool) (fs : FS) : (Except CliError Unit) × FS :=
  if !(fs.isFile ext_path) then (.error .notInstalled, fs)
  else if !confirm then (.error .cancelled, fs)
  else
    let fs := fs.removeFile ext_path
    match php_ini with
    | none => (.ok (), fs)
    | some ini =>
      if fs.isFile ini then
        (.ok (), fs.write ini (removeIniUpdate (fs.read ini) ext_file))
      else (.ok (), fs)

/-- `Remove::handle` after target resolution (lines 238-294): resolve the
extension directory and php.ini path (invoking `php-config`, which may create
the default php.ini, only when no explicit install directory is given),
compute the installed library path, and run `Remove.finish` on it. -/
def Remove.handle (r : Remove) (env : Env) (crate_name dll_pre dll_suf : String)
    (confirm : Bool) (fs : FS) : (Except CliError Unit) × FS :=
  let (ext_dir, php_ini, fs) :=
    match r.install_dir with
    | some install_dir => (install_dir, (none : Option String), fs)
    | none =>
      let (ini, fs') := PhpConfig.get_php_ini env fs
      (env.php_ext_dir, some ini, fs')
  let php_ini := match r.ini_path with
    | some ini_path => some ini_path
    | none => php_ini
  let ext_file := dll_pre ++ rustReplaceHyphens crate_name ++ dll_suf
  Remove.finish ext_file (ext_dir ++ "/" ++ ext_file) php_ini confirm fs

/-! ## Target resolution (`find_ext`, lines 411-452) -/

/-- The two fields of `cargo_metadata::Target` read by the CLI; equality of
whole values models the `PartialEq` comparison at line 489. -/
structure Target where
  name : String
  crate_types : List String
deriving DecidableEq

/-- The dylib/cdylib filter of `find_ext` (lines 427-436). -/
def qualifyingTargets (ts : List Target) : List Target :=
  ts.filter (fun t => t.crate_types.any (fun ty => ty == "dylib" || ty == "cdylib"))

/-- `find_ext` (lines 411-452), with the interactive `Select` collaborator
modelled as a function from the candidate names to a chosen index; an
out-of-range index from the collaborator is surfaced as an error (the source
trusts the collaborator and indexes directly). -/
def find_ext (choose : List String → Nat) (package_targets : List Target) :
    Except CliError Target :=
  match qualifyingTargets package_targets with
  | [] => .error .noLibTargets
  | [t] => .ok t
  | targets =>
    match targets.get? (choose (targets.map Target.name)) with
    | some t => .ok t
    | none => .error .selectionOutOfBounds

/-! ## Build-event correlation (`build_ext`, lines 465-512) -/

/-- A compiler artifact message: the built target and its output files. -/
structure Artifact where
  target : Target
  filenames : List String
deriving DecidableEq

/-- `cargo_metadata::Message` variants consumed by the build loop
(lines 487-501); all other variants are `other`. -/
inductive Message where
  | compilerArtifact (a : Artifact)
  | buildFinished (success : Bool)
  | other
deriving DecidableEq

/-- The event loop of `build_ext` (lines 484-502): record each artifact whose
target equals the requested one (later events replacing earlier ones), fail
on an unsuccessful `BuildFinished`, and stop consuming on a successful one. -/
def buildLoop (target : Target) : List Message → Option Artifact →
    Except CliError (Option Artifact)
  | [], artifact => .ok artifact
  | Message.compilerArtifact a :: rest, artifact =>
    buildLoop target rest (if a.target = target then some a else artifact)
  | Message.buildFinished success :: _, artifact =>
    if success then .ok artifact else .error .compilationFailed
  | Message.other :: rest, artifact => buildLoop target rest artifact

/-- `build_ext` (lines 465-512) given the parsed message stream: run the
event loop, require a recorded artifact, and return its first output file
whose extension is the platform dynamic-library extension. -/
def build_ext (dll_ext : String) (target : Target) (messages : List Message) :
    Except CliError String :=
  match buildLoop target messages none with
  | .error e => .error e
  | .ok none => .error .artifactNotCompiled
  | .ok (some artifact) =>
    match artifact.filenames.find? (fun f => pathExtension f == some dll_ext) with
    | some file => .ok file
    | none => .error .artifactPathNotFound

/-! ## Version gate (`Stubs::handle`, lines 298-348) -/

/-- A parsed semantic version `major.minor.patch`. -/
structure SemVer where
  major : Nat
  minor : Nat
  patch : Nat
deriving DecidableEq

/-- A numeric version component: non-empty, all digits, no leading zero. -/
def parseNumericIdent (cs : List Char) : Option Nat :=
  if cs.isEmpty then none
  else if !(cs.all Char.isDigit) then none
  else if cs.length > 1 && cs.headD '0' = '0' then none
  else some (cs.foldl (fun n c => n * 10 + (c.toNat - '0'.toNat)) 0)

/-- Modelled from the spec: the external semantic-versioning parser
(`semver::Version::from_str`, line 318) on the plain `major.minor.patch`
grammar used by the spec's examples (§4.3, §8); pre-release and build
metadata are not exercised by any claim. -/
def parseVersion (s : String) : Option SemVer :=
  match (splitOnChar '.' s.toList).map parseNumericIdent with
  | [some major, some minor, some patch] => some ⟨major, minor, patch⟩
  | _ => none

/-- Modelled from the spec: `semver::VersionReq::from_str` (line 315) applied
to a plain version string; a bare version inside a requirement denotes the
caret comparator of that version, so the parsed requirement is represented by
the version triple itself. -/
def parseVersionReq (s : String) : Option SemVer := parseVersion s

/-- Modelled from the spec: caret-range matching of a version against the
caret comparator of `cmp` (§4.3, §9 — major-locked above 1.0, minor-locked
below 1.0, with the comparator version as lower bound). -/
def matches_caret (cmp ver : SemVer) : Bool :=
  if ver.major != cmp.major then false
  else if 0 < cmp.major then
    if ver.minor != cmp.minor then decide (cmp.minor < ver.minor)
    else if ver.patch != cmp.patch then decide (cmp.patch < ver.patch)
    else true
  else if 0 < cmp.minor then
    if ver.minor != cmp.minor then false
    else if ver.patch != cmp.patch then decide (cmp.patch < ver.patch)
    else true
  else decide (ver.minor = cmp.minor ∧ ver.patch = cmp.patch)

/-- The version gate of `Stubs::handle` (lines 314-324): parse the CLI's own
contract version as a requirement, parse the extension's declared version,
and fail when either fails to parse or when the requirement does not match,
with three distinct errors. -/
def versionGate (cli_version ext_version : String) : Except GateError Unit :=
  match parseVersionReq cli_version with
  | none => .error (.cliParse cli_version)
  | some req =>
    match parseVersion ext_version with
    | none => .error (.extParse ext_version)
    | some ver =>
      if matches_caret req ver then .ok ()
      else .error (.incompatible (ver.major, ver.minor, ver.patch)
                                 (req.major, req.minor, req.patch))

/-- The descriptor fields of the loaded extension read by `Stubs::handle`:
the declared contract version and the module name (lines 312-339); the
opaque module value itself is consumed only by the external renderer. -/
structure EDesc where
  version : String
  module_name : String
deriving DecidableEq

/-- The `Stubs` argument structure (lines 130-150); `ext`/`manifest` feed the
path resolution that precedes the modelled portion. -/
structure Stubs where
  out : Option String
  stdout : Bool
deriving DecidableEq

/-- Where the generated stubs went: printed, or written to a file. -/
inductive StubsOut where
  | printed (s : String)
  | wrote (path content : String)
deriving DecidableEq

/-- `Stubs::handle` from the loaded descriptor onward (lines 311-347): run
the version gate, render the stubs through the external `to_stub`
collaborator, and either print them or write them to the requested (or
default) output path. -/
def Stubs.handle (s : Stubs) (cli_version : String) (desc : EDesc)
    (to_stub : Except Unit String) (cwd : String) : Except CliError StubsOut :=
  match versionGate cli_version desc.version with
  | .error e => .error (.gateFailed e)
  | .ok () =>
    match to_stub with
    | .error _ => .error .renderFailed
    | .ok stubs =>
      if s.stdout then .ok (.printed stubs)
      else
        match s.out with
        | some out_path => .ok (.wrote out_path stubs)
        | none => .ok (.wrote (cwd ++ "/" ++ desc.module_name ++ ".stubs.php") stubs)

/-- Concrete build targets used by the synthetic-stream checks. -/
def targetA : Target := ⟨"a", ["cdylib"]⟩

def targetB : Target := ⟨"b", ["cdylib"]⟩

/-! ## Helper lemmas -/

theorem assocFind_erase_self (p : String) (l : List (String × String)) :
    assocFind p (assocErase p l) = none := by
  induction l with
  | nil => rfl
  | cons e t ih =>
    obtain ⟨k, v⟩ := e
    by_cases hk : k = p
    · simp [assocErase, hk, ih]
    · simp [assocErase, assocFind, hk, ih]

theorem assocFind_erase_ne (p q : String) (h : ¬ q = p) (l : List (String × String)) :
    assocFind q (assocErase p l) = assocFind q l := by
  have hpq : ¬ p = q := fun he => h he.symm
  induction l with
  | nil => rfl
  | cons e t ih =>
    obtain ⟨k, v⟩ := e
    by_cases hk : k = p
    · subst hk
      simp [assocErase, assocFind, hpq, ih]
    · simp [assocErase, assocFind, hk, ih]

theorem FS.read_write_self (fs : FS) (p c : String) : (fs.write p c).read p = some c := by
  simp [FS.write, FS.read, assocFind]

theorem FS.read_write_ne (fs : FS) (p q c : String) (h : ¬ q = p) :
    (fs.write p c).read q = fs.read q := by
  have hpq : ¬ p = q := fun he => h he.symm
  simp [FS.write, FS.read, assocFind, hpq, assocFind_erase_ne p q h]

theorem FS.isFile_write_ne (fs : FS) (p q c : String) (h : ¬ q = p) :
    (fs.write p c).isFile q = fs.isFile q := by
  simp [FS.isFile, FS.read_write_ne fs p q c h]

theorem FS.isFile_removeFile_self (fs : FS) (p : String) :
    (fs.removeFile p).isFile p = false := by
  simp [FS.isFile, FS.read, FS.removeFile, assocFind_erase_self]

theorem FS.isFile_removeFile_ne (fs : FS) (p q : String) (h : ¬ q = p) :
    (fs.removeFile p).isFile q = fs.isFile q := by
  simp [FS.isFile, FS.read, FS.removeFile, assocFind_erase_ne p q h]

theorem string_toList_append (s t : String) : (s ++ t).toList = s.toList ++ t.toList := by
  cases s; cases t; rfl

theorem rustLinesAux_no_nl (cs : List Char) :
    ∀ acc : List Char, (∀ c ∈ cs, ¬ c = '\n') → ¬ (acc.reverse ++ cs = []) →
      rustLinesAux cs acc = [String.mk (acc.reverse ++ cs)] := by
  induction cs with
  | nil =>
    intro acc _ hne
    rw [List.append_nil] at hne
    cases acc with
    | nil => exact absurd rfl hne
    | cons a as => simp [rustLinesAux]
  | cons c rest ih =>
    intro acc h hc
    have hcn : ¬ c = '\n' := h c (List.mem_cons_self c rest)
    simp only [rustLinesAux, if_neg hcn]
    rw [ih (c :: acc) (fun x hx => h x (List.mem_cons_of_mem c hx)) (by simp)]
    simp

theorem rustLines_single (s : String) (hne : ¬ s.toList = [])
    (h : ∀ c ∈ s.toList, ¬ c = '\n') : rustLines s = [s] := by
  unfold rustLines
  rw [rustLinesAux_no_nl s.toList [] h (by simpa using hne)]
  rfl

/-- The php.ini rewrite always yields exactly the canonical line, whatever was
in the file before: a direct consequence of the truncate-at-open. -/
theorem installIniUpdate_closed_form (prior : Option String) (f : String) (d : Bool) :
    installIniUpdate prior f d
      = if d then ";" ++ ("extension=" ++ f) else "extension=" ++ f := by
  cases prior <;> cases d <;> rfl

/-! ## Claim theorems -/

/-- C1: the claim states that every prior configuration line not containing
the extension's reference string is retained by the rewrite.  The code opens
php.ini with `truncate(true)` before the retention loop runs (lines 200-206
and 274-280), so the loop reads an already-emptied file and every prior line
is dropped: rewriting a file whose sole line `memory_limit=128M` does not
contain the reference string leaves only the canonical extension line (for
install) or empty contents (for remove). -/
theorem C1_truncate_drops_unrelated_lines :
    rcontains "memory_limit=128M" "extension=libext.so" = false
  ∧ installIniUpdate (some "memory_limit=128M") "libext.so" false = "extension=libext.so"
  ∧ removeIniUpdate (some "memory_limit=128M") "libext.so" = "" :=
  ⟨by decide, rfl, rfl⟩

/-- C2: the version gate succeeds exactly under caret matching of the
caller's contract version against the extension's declared version; the
spec's four example pairs behave as stated, and a parse failure is a
distinct error from an incompatibility. -/
theorem C2_version_gate :
    versionGate "1.2.0" "1.3.5" = .ok ()
  ∧ versionGate "1.2.0" "2.0.0" = .error (.incompatible (2, 0, 0) (1, 2, 0))
  ∧ versionGate "0.3.0" "0.4.0" = .error (.incompatible (0, 4, 0) (0, 3, 0))
  ∧ versionGate "1.2.0" "abc" = .error (.extParse "abc")
  ∧ (∀ s v w, GateError.extParse s ≠ GateError.incompatible v w)
  ∧ (∀ cli ext, versionGate cli ext = .ok () ↔
      ∃ req ver, parseVersionReq cli = some req ∧ parseVersion ext = some ver ∧
        matches_caret req ver = true) := by
  refine ⟨rfl, rfl, rfl, rfl, fun s v w h => GateError.noConfusion h, fun cli ext => ?_⟩
  constructor
  · intro h
    cases h1 : parseVersionReq cli with
    | none =>
      simp only [versionGate, h1] at h
      exact Except.noConfusion h
    | some req =>
      cases h2 : parseVersion ext with
      | none =>
        simp only [versionGate, h1, h2] at h
        exact Except.noConfusion h
      | some ver =>
        simp only [versionGate, h1, h2] at h
        cases hm : matches_caret req ver with
        | false => rw [hm] at h; simp at h
        | true => exact ⟨req, ver, rfl, rfl, hm⟩
  · rintro ⟨req, ver, h1, h2, hm⟩
    simp [versionGate, h1, h2, hm]

/-- C2 witness: the gate applied to the concrete compatible pair. -/
theorem C2_version_gate_witness :
    ∃ req ver, parseVersionReq "1.2.0" = some req ∧ parseVersion "1.3.5" = some ver ∧
      matches_caret req ver = true :=
  (C2_version_gate.2.2.2.2.2 "1.2.0" "1.3.5").mp rfl

/-- C7: an unsuccessful `BuildFinished` always fails the build with the
compilation-failed error, whatever artifact was recorded before it, and a
successful `BuildFinished` returns immediately, independent of any events
after it. -/
theorem C7_build_finished_precedence :
    (∀ (t : Target) (acc : Option Artifact) (rest : List Message),
       buildLoop t (Message.buildFinished false :: rest) acc = .error .compilationFailed)
  ∧ (∀ (t : Target) (acc : Option Artifact) (rest : List Message),
       buildLoop t (Message.buildFinished true :: rest) acc = .ok acc)
  ∧ build_ext "so" targetA
      [Message.compilerArtifact ⟨targetA, ["liba.so"]⟩, Message.buildFinished false]
      = .error .compilationFailed :=
  ⟨fun _ _ _ => rfl, fun _ _ _ => rfl, rfl⟩

/-- C9: starting from an empty configuration file, enable then disable then
enable of a fixed extension file name yields a file whose lines are exactly
the canonical enabled form. -/
theorem C9_enable_disable_enable (f : String) (hf : ∀ c ∈ f.toList, ¬ c = '\n') :
    rustLines (installIniUpdate
      (some (installIniUpdate (some (installIniUpdate (some "") f false)) f true))
      f false) = ["extension=" ++ f] := by
  simp only [installIniUpdate_closed_form]
  simp only [Bool.false_eq_true, if_false]
  apply rustLines_single
  · rw [string_toList_append]
    simp
  · intro c hc
    rw [string_toList_append] at hc
    rcases List.mem_append.mp hc with h | h
    · intro he
      subst he
      revert h
      decide
    · exact hf c h

/-- C9 witness at the concrete file name used by the spec's examples. -/
theorem C9_enable_disable_enable_witness :
    rustLines (installIniUpdate
      (some (installIniUpdate (some (installIniUpdate (some "") "libfoo.so" false))
        "libfoo.so" true))
      "libfoo.so" false) = ["extension=" ++ "libfoo.so"] :=
  C9_enable_disable_enable "libfoo.so" (by decide)

theorem buildLoop_target_inv (t : Target) :
    ∀ (msgs : List Message) (acc : Option Artifact),
      (∀ a, acc = some a → a.target = t) →
      ∀ r : Artifact, buildLoop t msgs acc = .ok (some r) → r.target = t := by
  intro msgs
  induction msgs with
  | nil =>
    intro acc hacc r h
    simp only [buildLoop] at h
    exact hacc r (Except.ok.inj h)
  | cons m rest ih =>
    intro acc hacc r h
    cases m with
    | compilerArtifact a =>
      simp only [buildLoop] at h
      by_cases hat : a.target = t
      · rw [if_pos hat] at h
        exact ih (some a) (fun b hb => (Option.some.inj hb) ▸ hat) r h
      · rw [if_neg hat] at h
        exact ih acc hacc r h
    | buildFinished success =>
      cases success with
      | true =>
        simp only [buildLoop] at h
        exact hacc r (Except.ok.inj h)
      | false =>
        simp only [buildLoop] at h
        exact Except.noConfusion h
    | other =>
      simp only [buildLoop] at h
      exact ih acc hacc r h

theorem buildLoop_no_match (t : Target) :
    ∀ (msgs : List Message) (acc : Option Artifact),
      (∀ a, Message.compilerArtifact a ∈ msgs → ¬ a.target = t) →
      Message.buildFinished false ∉ msgs →
      buildLoop t msgs acc = .ok acc := by
  intro msgs
  induction msgs with
  | nil =>
    intro acc _ _
    rfl
  | cons m rest ih =>
    intro acc hart hfin
    cases m with
    | compilerArtifact a =>
      have ha : ¬ a.target = t := hart a (List.mem_cons_self _ _)
      simp only [buildLoop, if_neg ha]
      exact ih acc (fun b hb => hart b (List.mem_cons_of_mem _ hb))
        (fun hm => hfin (List.mem_cons_of_mem _ hm))
    | buildFinished success =>
      cases success with
      | true => rfl
      | false => exact absurd (List.mem_cons_self _ _) hfin
    | other =>
      simp only [buildLoop]
      exact ih acc (fun b hb => hart b (List.mem_cons_of_mem _ hb))
        (fun hm => hfin (List.mem_cons_of_mem _ hm))

/-- C3: the build loop records only artifacts whose target equals the
requested one; when the stream ends, or finishes successfully, without a
matching artifact, the build fails with the artifact-not-produced error; on
the spec's synthetic streams, resolving target B against artifacts for A
then B yields B's library, resolving A against only B's artifact fails, and
a later artifact for the same target wins over an earlier one. -/
theorem C3_build_correlation :
    (∀ (t : Target) (msgs : List Message) (r : Artifact),
        buildLoop t msgs none = .ok (some r) → r.target = t)
  ∧ (∀ (dll_ext : String) (t : Target) (msgs : List Message),
        (∀ a, Message.compilerArtifact a ∈ msgs → ¬ a.target = t) →
        Message.buildFinished false ∉ msgs →
        build_ext dll_ext t msgs = .error .artifactNotCompiled)
  ∧ build_ext "so" targetB
      [Message.compilerArtifact ⟨targetA, ["liba.so"]⟩,
       Message.compilerArtifact ⟨targetB, ["libb.so"]⟩, Message.buildFinished true]
      = .ok "libb.so"
  ∧ build_ext "so" targetA
      [Message.compilerArtifact ⟨targetB, ["libb.so"]⟩, Message.buildFinished true]
      = .error .artifactNotCompiled
  ∧ build_ext "so" targetB
      [Message.compilerArtifact ⟨targetB, ["old/libb.so"]⟩,
       Message.compilerArtifact ⟨targetB, ["new/libb.so"]⟩, Message.buildFinished true]
      = .ok "new/libb.so" := by
  refine ⟨?_, ?_, rfl, rfl, rfl⟩
  · intro t msgs r h
    exact buildLoop_target_inv t msgs none (fun a ha => Option.noConfusion ha) r h
  · intro dll_ext t msgs hart hfin
    have h := buildLoop_no_match t msgs none hart hfin
    simp [build_ext, h]

/-- C3 witness: the recorded artifact on a concrete stream has the requested
target. -/
theorem C3_build_correlation_witness :
    (Artifact.mk targetB ["libb.so"]).target = targetB :=
  C3_build_correlation.1 targetB
    [Message.compilerArtifact ⟨targetB, ["libb.so"]⟩, Message.buildFinished true]
    ⟨targetB, ["libb.so"]⟩ rfl

/-- C4: with zero dylib/cdylib targets resolution fails with the
no-library-targets error; with exactly one, that target is returned and the
result does not depend on the selection collaborator; with two or more, the
returned target is the qualifying candidate at whatever index the
collaborator reports. -/
theorem C4_target_resolution :
    (∀ (choose : List String → Nat) (ts : List Target),
        qualifyingTargets ts = [] → find_ext choose ts = .error .noLibTargets)
  ∧ (∀ (choose choose' : List String → Nat) (ts : List Target) (t : Target),
        qualifyingTargets ts = [t] →
        find_ext choose ts = .ok t ∧ find_ext choose ts = find_ext choose' ts)
  ∧ (∀ (choose : List String → Nat) (ts : List Target) (i : Nat) (t : Target),
        choose ((qualifyingTargets ts).map Target.name) = i →
        (qualifyingTargets ts).get? i = some t →
        2 ≤ (qualifyingTargets ts).length →
        find_ext choose ts = .ok t) := by
  refine ⟨?_, ?_, ?_⟩
  · intro choose ts h
    simp [find_ext, h]
  · intro choose choose' ts t h
    constructor <;> simp [find_ext, h]
  · intro choose ts i t hc hg hlen
    rcases hq : qualifyingTargets ts with _ | ⟨a, _ | ⟨b, rest⟩⟩
    · rw [hq] at hlen
      simp at hlen
    · rw [hq] at hlen
      simp at hlen
    · rw [hq] at hc hg
      simp only [find_ext, hq]
      rw [hc, hg]

/-- C4 witness: the zero-target case at a concrete empty project. -/
theorem C4_target_resolution_witness :
    find_ext (fun _ => 0) [] = .error .noLibTargets :=
  C4_target_resolution.1 (fun _ => 0) [] rfl

/-- C8: when the version gate fails, `Stubs::handle` terminates with the
gate's error before the descriptor is used — the result is independent of
the stub renderer and carries no rendered output. -/
theorem C8_gate_blocks_renderer (s : Stubs) (cli : String) (desc : EDesc)
    (to_stub to_stub' : Except Unit String) (cwd : String) (e : GateError)
    (h : versionGate cli desc.version = .error e) :
    Stubs.handle s cli desc to_stub cwd = .error (.gateFailed e)
  ∧ Stubs.handle s cli desc to_stub cwd = Stubs.handle s cli desc to_stub' cwd := by
  constructor <;> simp [Stubs.handle, h]

/-- C8 witness: a concrete unparseable extension version blocks both a
succeeding and a failing renderer identically. -/
theorem C8_gate_blocks_renderer_witness :
    Stubs.handle ⟨none, false⟩ "1.2.0" ⟨"abc", "m"⟩ (.ok "stubs") ""
      = .error (.gateFailed (.extParse "abc"))
  ∧ Stubs.handle ⟨none, false⟩ "1.2.0" ⟨"abc", "m"⟩ (.ok "stubs") ""
      = Stubs.handle ⟨none, false⟩ "1.2.0" ⟨"abc", "m"⟩ (.error ()) "" :=
  C8_gate_blocks_renderer ⟨none, false⟩ "1.2.0" ⟨"abc", "m"⟩ (.ok "stubs") (.error ()) ""
    (.extParse "abc") rfl

theorem remove_finish_notInstalled (ext_file ext_path : String) (php_ini : Option String)
    (confirm : Bool) (fs : FS) (hnf : fs.isFile ext_path = false) :
    Remove.finish ext_file ext_path php_ini confirm fs = (.error .notInstalled, fs) := by
  simp [Remove.finish, hnf]

theorem remove_finish_ok_post (ext_file ext_path : String) (php_ini : Option String)
    (confirm : Bool) (fs fs' : FS)
    (h : Remove.finish ext_file ext_path php_ini confirm fs = (.ok (), fs')) :
    fs'.isFile ext_path = false := by
  cases hif : fs.isFile ext_path with
  | false =>
    rw [remove_finish_notInstalled _ _ _ _ _ hif] at h
    injection h with h1 h2
    exact Except.noConfusion h1
  | true =>
    cases confirm with
    | false =>
      have heq : Remove.finish ext_file ext_path php_ini false fs
          = (.error .cancelled, fs) := by
        simp [Remove.finish, hif]
      rw [heq] at h
      injection h with h1 h2
      exact Except.noConfusion h1
    | true =>
      cases php_ini with
      | none =>
        have heq : Remove.finish ext_file ext_path none true fs
            = (.ok (), fs.removeFile ext_path) := by
          simp [Remove.finish, hif]
        rw [heq] at h
        injection h with h1 h2
        rw [← h2]
        exact FS.isFile_removeFile_self fs ext_path
      | some ini =>
        cases hin : (fs.removeFile ext_path).isFile ini with
        | false =>
          have heq : Remove.finish ext_file ext_path (some ini) true fs
              = (.ok (), fs.removeFile ext_path) := by
            simp [Remove.finish, hif, hin]
          rw [heq] at h
          injection h with h1 h2
          rw [← h2]
          exact FS.isFile_removeFile_self fs ext_path
        | true =>
          have hni : ¬ ext_path = ini := by
            intro he
            rw [← he, FS.isFile_removeFile_self] at hin
            exact Bool.noConfusion hin
          have heq : Remove.finish ext_file ext_path (some ini) true fs
              = (.ok (), (fs.removeFile ext_path).write ini
                  (removeIniUpdate ((fs.removeFile ext_path).read ini) ext_file)) := by
            simp [Remove.finish, hif, hin]
          rw [heq] at h
          injection h with h1 h2
          rw [← h2, FS.isFile_write_ne _ _ _ _ hni]
          exact FS.isFile_removeFile_self fs ext_path

theorem remove_handle_notInstalled (r : Remove) (env : Env)
    (crate_name dll_pre dll_suf : String) (confirm : Bool) (fs : FS)
    (hne : ¬ removeExtPath r env crate_name dll_pre dll_suf = env.php_ini_dir ++ "/php.ini")
    (hnf : fs.isFile (removeExtPath r env crate_name dll_pre dll_suf) = false) :
    (Remove.handle r env crate_name dll_pre dll_suf confirm fs).1 = .error .notInstalled := by
  obtain ⟨idir, ipath⟩ := r
  cases idir with
  | some d =>
    have hnf' : fs.isFile
        (d ++ "/" ++ (dll_pre ++ rustReplaceHyphens crate_name ++ dll_suf)) = false := hnf
    cases ipath <;>
      simp [Remove.handle, remove_finish_notInstalled _ _ _ _ _ hnf']
  | none =>
    have hnf' : fs.isFile (env.php_ext_dir ++ "/" ++
        (dll_pre ++ rustReplaceHyphens crate_name ++ dll_suf)) = false := hnf
    have hne' : ¬ (env.php_ext_dir ++ "/" ++
        (dll_pre ++ rustReplaceHyphens crate_name ++ dll_suf))
        = env.php_ini_dir ++ "/php.ini" := hne
    by_cases hex : (fs.isFile (env.php_ini_dir ++ "/php.ini")
        || fs.isDir (env.php_ini_dir ++ "/php.ini")) = true
    · cases ipath <;>
        simp [Remove.handle, PhpConfig.get_php_ini, hex,
          remove_finish_notInstalled _ _ _ _ _ hnf']
    · have hex' : (fs.isFile (env.php_ini_dir ++ "/php.ini")
          || fs.isDir (env.php_ini_dir ++ "/php.ini")) = false := by
        simpa using hex
      have hwf : (fs.write (env.php_ini_dir ++ "/php.ini") "").isFile
          (env.php_ext_dir ++ "/" ++
            (dll_pre ++ rustReplaceHyphens crate_name ++ dll_suf)) = false := by
        rw [FS.isFile_write_ne _ _ _ _ hne']
        exact hnf'
      cases ipath <;>
        simp [Remove.handle, PhpConfig.get_php_ini, hex',
          remove_finish_notInstalled _ _ _ _ _ hwf]

theorem remove_handle_ok_post (r : Remove) (env : Env)
    (crate_name dll_pre dll_suf : String) (confirm : Bool) (fs fs' : FS)
    (h : Remove.handle r env crate_name dll_pre dll_suf confirm fs = (.ok (), fs')) :
    fs'.isFile (removeExtPath r env crate_name dll_pre dll_suf) = false := by
  obtain ⟨idir, ipath⟩ := r
  cases idir with
  | some d =>
    cases ipath with
    | none =>
      have h' : Remove.finish (dll_pre ++ rustReplaceHyphens crate_name ++ dll_suf)
          (d ++ "/" ++ (dll_pre ++ rustReplaceHyphens crate_name ++ dll_suf)) none
          confirm fs = (.ok (), fs') := h
      exact remove_finish_ok_post _ _ _ _ _ _ h'
    | some p =>
      have h' : Remove.finish (dll_pre ++ rustReplaceHyphens crate_name ++ dll_suf)
          (d ++ "/" ++ (dll_pre ++ rustReplaceHyphens crate_name ++ dll_suf)) (some p)
          confirm fs = (.ok (), fs') := h
      exact remove_finish_ok_post _ _ _ _ _ _ h'
  | none =>
    by_cases hex : (fs.isFile (env.php_ini_dir ++ "/php.ini")
        || fs.isDir (env.php_ini_dir ++ "/php.ini")) = true
    · cases ipath with
      | none =>
        have h' : Remove.finish (dll_pre ++ rustReplaceHyphens crate_name ++ dll_suf)
            (env.php_ext_dir ++ "/" ++ (dll_pre ++ rustReplaceHyphens crate_name ++ dll_suf))
            (some (env.php_ini_dir ++ "/php.ini")) confirm
            fs = (.ok (), fs') := by
          have hg : PhpConfig.get_php_ini env fs
              = (env.php_ini_dir ++ "/php.ini", fs) := by
            simp [PhpConfig.get_php_ini, hex]
          calc Remove.finish (dll_pre ++ rustReplaceHyphens crate_name ++ dll_suf)
                (env.php_ext_dir ++ "/" ++
                  (dll_pre ++ rustReplaceHyphens crate_name ++ dll_suf))
                (some (env.php_ini_dir ++ "/php.ini")) confirm
                fs
              = Remove.handle ⟨none, none⟩ env crate_name dll_pre dll_suf confirm fs := by
                simp only [Remove.handle, hg]
            _ = (.ok (), fs') := h
        exact remove_finish_ok_post _ _ _ _ _ _ h'
      | some p =>
        have h' : Remove.finish (dll_pre ++ rustReplaceHyphens crate_name ++ dll_suf)
            (env.php_ext_dir ++ "/" ++ (dll_pre ++ rustReplaceHyphens crate_name ++ dll_suf))
            (some p) confirm
            fs = (.ok (), fs') := by
          have hg : PhpConfig.get_php_ini env fs
              = (env.php_ini_dir ++ "/php.ini", fs) := by
            simp [PhpConfig.get_php_ini, hex]
          calc Remove.finish (dll_pre ++ rustReplaceHyphens crate_name ++ dll_suf)
                (env.php_ext_dir ++ "/" ++
                  (dll_pre ++ rustReplaceHyphens crate_name ++ dll_suf))
                (some p) confirm
                fs
              = Remove.handle ⟨none, some p⟩ env crate_name dll_pre dll_suf confirm fs := by
                simp only [Remove.handle, hg]
            _ = (.ok (), fs') := h
        exact remove_finish_ok_post _ _ _ _ _ _ h'
    · have hex' : (fs.isFile (env.php_ini_dir ++ "/php.ini")
          || fs.isDir (env.php_ini_dir ++ "/php.ini")) = false := by
        simpa using hex
      cases ipath with
      | none =>
        have h' : Remove.finish (dll_pre ++ rustReplaceHyphens crate_name ++ dll_suf)
            (env.php_ext_dir ++ "/" ++ (dll_pre ++ rustReplaceHyphens crate_name ++ dll_suf))
            (some (env.php_ini_dir ++ "/php.ini")) confirm
            (fs.write (env.php_ini_dir ++ "/php.ini") "") = (.ok (), fs') := by
          have hg : PhpConfig.get_php_ini env fs
              = (env.php_ini_dir ++ "/php.ini", fs.write (env.php_ini_dir ++ "/php.ini") "") := by
            simp [PhpConfig.get_php_ini, hex']
          calc Remove.finish (dll_pre ++ rustReplaceHyphens crate_name ++ dll_suf)
                (env.php_ext_dir ++ "/" ++
                  (dll_pre ++ rustReplaceHyphens crate_name ++ dll_suf))
                (some (env.php_ini_dir ++ "/php.ini")) confirm
                (fs.write (env.php_ini_dir ++ "/php.ini") "")
              = Remove.handle ⟨none, none⟩ env crate_name dll_pre dll_suf confirm fs := by
                simp only [Remove.handle, hg]
            _ = (.ok (), fs') := h
        exact remove_finish_ok_post _ _ _ _ _ _ h'
      | some p =>
        have h' : Remove.finish (dll_pre ++ rustReplaceHyphens crate_name ++ dll_suf)
            (env.php_ext_dir ++ "/" ++ (dll_pre ++ rustReplaceHyphens crate_name ++ dll_suf))
            (some p) confirm
            (fs.write (env.php_ini_dir ++ "/php.ini") "") = (.ok (), fs') := by
          have hg : PhpConfig.get_php_ini env fs
              = (env.php_ini_dir ++ "/php.ini", fs.write (env.php_ini_dir ++ "/php.ini") "") := by
            simp [PhpConfig.get_php_ini, hex']
          calc Remove.finish (dll_pre ++ rustReplaceHyphens crate_name ++ dll_suf)
                (env.php_ext_dir ++ "/" ++
                  (dll_pre ++ rustReplaceHyphens crate_name ++ dll_suf))
                (some p) confirm
                (fs.write (env.php_ini_dir ++ "/php.ini") "")
              = Remove.handle ⟨none, some p⟩ env crate_name dll_pre dll_suf confirm fs := by
                simp only [Remove.handle, hg]
            _ = (.ok (), fs') := h
        exact remove_finish_ok_post _ _ _ _ _ _ h'

/-- C6: a remove invocation whose installed library file is absent fails
with the not-installed error rather than succeeding silently, and a remove
invocation that succeeded leaves a state in which running the same remove
again fails with that error.  The side condition says the installed library
path differs from the default `php.ini` path, which always holds in the real
program since the platform library suffix is never `.ini`. -/
theorem C6_remove_requires_installed :
    (∀ (r : Remove) (env : Env) (crate_name dll_pre dll_suf : String)
       (confirm : Bool) (fs : FS),
       ¬ removeExtPath r env crate_name dll_pre dll_suf = env.php_ini_dir ++ "/php.ini" →
       fs.isFile (removeExtPath r env crate_name dll_pre dll_suf) = false →
       (Remove.handle r env crate_name dll_pre dll_suf confirm fs).1 = .error .notInstalled)
  ∧ (∀ (r : Remove) (env : Env) (crate_name dll_pre dll_suf : String)
       (confirm : Bool) (fs fs' : FS),
       ¬ removeExtPath r env crate_name dll_pre dll_suf = env.php_ini_dir ++ "/php.ini" →
       Remove.handle r env crate_name dll_pre dll_suf confirm fs = (.ok (), fs') →
       (Remove.handle r env crate_name dll_pre dll_suf confirm fs').1
         = .error .notInstalled) :=
  ⟨fun r env crate_name dll_pre dll_suf confirm fs hne hnf =>
    remove_handle_notInstalled r env crate_name dll_pre dll_suf confirm fs hne hnf,
   fun r env crate_name dll_pre dll_suf confirm fs fs' hne h =>
    remove_handle_notInstalled r env crate_name dll_pre dll_suf confirm fs' hne
      (remove_handle_ok_post r env crate_name dll_pre dll_suf confirm fs fs' h)⟩

/-- C6 witness: removing from an empty filesystem with an explicit install
directory fails with the not-installed error. -/
theorem C6_remove_requires_installed_witness :
    (Remove.handle ⟨some "/ext", none⟩ ⟨"/e", "/i"⟩ "demo" "lib" ".so" true
      (FS.mk [] [])).1 = .error .notInstalled :=
  C6_remove_requires_installed.1 ⟨some "/ext", none⟩ ⟨"/e", "/i"⟩ "demo" "lib" ".so" true
    (FS.mk [] []) (by decide) (by decide)

/-- C5 counterexample: on the php-config default route, a remove invocation
against a filesystem with no configuration file creates the default
`php.ini` (the helper creates it at lines 386-388 before the removal even
runs), contradicting the claim that the file is never created for remove. -/
theorem C5_default_route_creates_ini :
    (FS.mk [("/ext/libdemo.so", "BIN")] []).isFile "/etc/php.ini" = false
  ∧ (Remove.handle ⟨none, none⟩ ⟨"/ext", "/etc"⟩ "demo" "lib" ".so" true
      (FS.mk [("/ext/libdemo.so", "BIN")] [])).1 = .ok ()
  ∧ ((Remove.handle ⟨none, none⟩ ⟨"/ext", "/etc"⟩ "demo" "lib" ".so" true
      (FS.mk [("/ext/libdemo.so", "BIN")] [])).2).isFile "/etc/php.ini" = true :=
  ⟨rfl, rfl, rfl⟩

/-- C5 (amended): when the remove action is given an explicit install
directory and an explicit configuration path, a missing configuration file
is never created and its absence is treated as nothing to modify — the
operation completes and its only filesystem effect is deleting the installed
library; the default route instead creates the file through the helper. -/
theorem C5_explicit_paths_no_create (d p : String) (env : Env)
    (crate_name dll_pre dll_suf : String) (fs : FS)
    (hp : fs.isFile p = false)
    (hlib : fs.isFile (removeExtPath ⟨some d, some p⟩ env crate_name dll_pre dll_suf)
      = true) :
    Remove.handle ⟨some d, some p⟩ env crate_name dll_pre dll_suf true fs
      = (.ok (), fs.removeFile (removeExtPath ⟨some d, some p⟩ env crate_name dll_pre dll_suf))
  ∧ ((Remove.handle ⟨some d, some p⟩ env crate_name dll_pre dll_suf true fs).2).isFile p
      = false := by
  have hlib' : fs.isFile
      (d ++ "/" ++ (dll_pre ++ rustReplaceHyphens crate_name ++ dll_suf)) = true := hlib
  have hne : ¬ p = d ++ "/" ++ (dll_pre ++ rustReplaceHyphens crate_name ++ dll_suf) := by
    intro he
    rw [he] at hp
    rw [hp] at hlib'
    exact Bool.noConfusion hlib'
  have hrm : (fs.removeFile
      (d ++ "/" ++ (dll_pre ++ rustReplaceHyphens crate_name ++ dll_suf))).isFile p
      = false := by
    rw [FS.isFile_removeFile_ne _ _ _ hne]
    exact hp
  have h1 : Remove.handle ⟨some d, some p⟩ env crate_name dll_pre dll_suf true fs
      = (.ok (), fs.removeFile
          (d ++ "/" ++ (dll_pre ++ rustReplaceHyphens crate_name ++ dll_suf))) := by
    show Remove.finish (dll_pre ++ rustReplaceHyphens crate_name ++ dll_suf)
        (d ++ "/" ++ (dll_pre ++ rustReplaceHyphens crate_name ++ dll_suf)) (some p) true fs
      = _
    simp [Remove.finish, hlib', hrm]
  constructor
  · rw [h1]
    rfl
  · rw [h1]
    exact hrm

/-- C5 witness for the amended statement, at concrete explicit paths. -/
theorem C5_explicit_paths_no_create_witness :
    Remove.handle ⟨some "/ext", some "/etc/my.ini"⟩ ⟨"/e", "/i"⟩ "demo" "lib" ".so" true
      (FS.mk [("/ext/libdemo.so", "BIN")] [])
      = (.ok (), (FS.mk [("/ext/libdemo.so", "BIN")] []).removeFile
          (removeExtPath ⟨some "/ext", some "/etc/my.ini"⟩ ⟨"/e", "/i"⟩ "demo" "lib" ".so"))
  ∧ ((Remove.handle ⟨some "/ext", some "/etc/my.ini"⟩ ⟨"/e", "/i"⟩ "demo" "lib" ".so" true
      (FS.mk [("/ext/libdemo.so", "BIN")] [])).2).isFile "/etc/my.ini" = false :=
  C5_explicit_paths_no_create "/ext" "/etc/my.ini" ⟨"/e", "/i"⟩ "demo" "lib" ".so"
    (FS.mk [("/ext/libdemo.so", "BIN")] []) (by decide) (by decide)

/-- C10: an install invocation with an explicit install directory and no
explicit configuration path never invokes the php-config helper (its result
is the same for every helper environment) and, beyond the confirmation and
the copy of the built extension into the given directory, touches nothing:
no configuration file is opened, created, or modified. -/
theorem C10_explicit_install_dir_frame (d : String) (dis rel : Bool) (env env' : Env)
    (ext_path : String) (confirm : Bool) (fs : FS) :
    Install.handle ⟨some d, none, dis, rel⟩ env ext_path confirm fs
      = (if !confirm then (.error .cancelled, fs)
         else
           match fs.read ext_path with
           | none => (.error .copyFailed, fs)
           | some bin =>
             (.ok (), fs.write (if fs.isDir d then d ++ "/" ++ pathFileName ext_path else d)
               bin))
  ∧ Install.handle ⟨some d, none, dis, rel⟩ env ext_path confirm fs
      = Install.handle ⟨some d, none, dis, rel⟩ env' ext_path confirm fs :=
  ⟨rfl, rfl⟩

/-- C10 witness at a concrete invocation. -/
theorem C10_explicit_install_dir_frame_witness :
    Install.handle ⟨some "/ext", none, false, false⟩ ⟨"/e", "/i"⟩ "/t/libdemo.so" true
        (FS.mk [("/t/libdemo.so", "BIN")] [])
      = (if !true then (.error .cancelled, FS.mk [("/t/libdemo.so", "BIN")] [])
         else
           match (FS.mk [("/t/libdemo.so", "BIN")] []).read "/t/libdemo.so" with
           | none => (.error .copyFailed, FS.mk [("/t/libdemo.so", "BIN")] [])
           | some bin =>
             (.ok (), (FS.mk [("/t/libdemo.so", "BIN")] []).write
               (if (FS.mk [("/t/libdemo.so", "BIN")] []).isDir "/ext" then
                 "/ext" ++ "/" ++ pathFileName "/t/libdemo.so" else "/ext") bin))
  ∧ Install.handle ⟨some "/ext", none, false, false⟩ ⟨"/e", "/i"⟩ "/t/libdemo.so" true
        (FS.mk [("/t/libdemo.so", "BIN")] [])
      = Install.handle ⟨some "/ext", none, false, false⟩ ⟨"/x", "/y"⟩ "/t/libdemo.so" true
        (FS.mk [("/t/libdemo.so", "BIN")] []) :=
  C10_explicit_install_dir_frame "/ext" false false ⟨"/e", "/i"⟩ ⟨"/x", "/y"⟩
    "/t/libdemo.so" true (FS.mk [("/t/libdemo.so", "BIN")] [])
